import Mathlib

/-!
Verification of the core of CLI-TOTP-AUTHENTICATOR (src/main.rs).

The development shallowly embeds the program's core:

* the code engine `generate_code` (HOTP over a TOTP counter, HMAC-SHA256,
  first-8-bytes truncation, mod 10^6);
* the application state `App` together with the `code_list_state` selection
  (here `CoreState`), the `Enter`/`d`/`Down`/`Up` key handlers and the
  per-tick refresh `App::update`.

Machine integers are modelled as `Nat` with explicit reduction `% 2^32`
(resp. byte masks) where the Rust code works on `u32`/`u64`/bytes.  The Rust
`f64` field `progress` is modelled exactly in fixed-point units of `1/10000`
of the bar: the source constants `0.0065` and `1.0` become `65` and `10000`.
No claim settled here depends on floating-point rounding: every statement
about `progress` concerns the exact constants and the structure of the
update, and the reachable values (sums of the per-tick increment from 0)
cross the wrap threshold after the same number of ticks (154) in `f64` and
in this exact model, the accumulated `f64` error (≈ 1e-16) being far below
the `0.0005` margin at the threshold.  Rust panics (out-of-range
`Vec::remove`, debug-profile integer
underflow) are modelled by `Option`: `none` is a panic.  Wall-clock time is an
explicit parameter of every operation that reads it in the source
(`SystemTime::now()` inside `generate_code`).
-/

set_option maxRecDepth 100000
set_option maxHeartbeats 4000000

/-! ### SHA-256 over byte lists (bytes and words are `Nat`) -/

/-- Reduce to a 32-bit word. -/
def w32 (n : Nat) : Nat := n % 4294967296

/-- Right rotation of a 32-bit word. -/
def rotr (k n : Nat) : Nat := w32 ((n >>> k) ||| (n <<< (32 - k)))

def bSig0 (x : Nat) : Nat := (rotr 2 x) ^^^ (rotr 13 x) ^^^ (rotr 22 x)

def bSig1 (x : Nat) : Nat := (rotr 6 x) ^^^ (rotr 11 x) ^^^ (rotr 25 x)

def sSig0 (x : Nat) : Nat := (rotr 7 x) ^^^ (rotr 18 x) ^^^ (x >>> 3)

def sSig1 (x : Nat) : Nat := (rotr 17 x) ^^^ (rotr 19 x) ^^^ (x >>> 10)

def chF (x y z : Nat) : Nat := (x &&& y) ^^^ ((x ^^^ 4294967295) &&& z)

def majF (x y z : Nat) : Nat := (x &&& y) ^^^ (x &&& z) ^^^ (y &&& z)

/-- `n` encoded as `len` big-endian bytes (truncates above `2^(8*len)`). -/
def beBytes (n len : Nat) : List Nat :=
  (List.range len).map (fun i => (n >>> (8 * (len - 1 - i))) % 256)

/-- Big-endian value of a byte list. -/
def beNat (bs : List Nat) : Nat := bs.foldl (fun acc b => acc * 256 + b) 0

/-- SHA-256 round constants (FIPS 180-4, written in decimal). -/
def shaK : List Nat :=
  [1116352408, 1899447441, 3049323471, 3921009573, 961987163,
   1508970993, 2453635748, 2870763221, 3624381080, 310598401,
   607225278, 1426881987, 1925078388, 2162078206, 2614888103,
   3248222580, 3835390401, 4022224774, 264347078, 604807628,
   770255983, 1249150122, 1555081692, 1996064986, 2554220882,
   2821834349, 2952996808, 3210313671, 3336571891, 3584528711,
   113926993, 338241895, 666307205, 773529912, 1294757372,
   1396182291, 1695183700, 1986661051, 2177026350, 2456956037,
   2730485921, 2820302411, 3259730800, 3345764771, 3516065817,
   3600352804, 4094571909, 275423344, 430227734, 506948616,
   659060556, 883997877, 958139571, 1322822218, 1537002063,
   1747873779, 1955562222, 2024104815, 2227730452, 2361852424,
   2428436474, 2756734187, 3204031479, 3329325298]

/-- Eight 32-bit working registers of the compression function. -/
structure Regs where
  a : Nat
  b : Nat
  c : Nat
  d : Nat
  e : Nat
  f : Nat
  g : Nat
  h : Nat

/-- The eight SHA-256 initial hash values (FIPS 180-4, written in decimal). -/
def shaH0 : Regs :=
  ⟨1779033703, 3144134277, 1013904242, 2773480762,
   1359893119, 2600822924, 528734635, 1541459225⟩

/-- One compression round with combined constant-plus-schedule word `kw`. -/
def shaRound (st : Regs) (kw : Nat) : Regs :=
  let t1 := w32 (st.h + bSig1 st.e + chF st.e st.f st.g + kw)
  let t2 := w32 (bSig0 st.a + majF st.a st.b st.c)
  ⟨w32 (t1 + t2), st.a, st.b, st.c, w32 (st.d + t1), st.e, st.f, st.g⟩

/-- Extend a 16-word schedule by `n` further words. -/
def extendSched : Nat → List Nat → List Nat
  | 0, ws => ws
  | n + 1, ws =>
      let i := ws.length
      let w := w32 (sSig1 (ws.getD (i - 2) 0) + ws.getD (i - 7) 0 +
                    sSig0 (ws.getD (i - 15) 0) + ws.getD (i - 16) 0)
      extendSched n (ws ++ [w])

/-- Split a list into chunks of `k` elements; `fuel` bounds the recursion. -/
def chunksOf : Nat → Nat → List Nat → List (List Nat)
  | 0, _, _ => []
  | _ + 1, _, [] => []
  | fuel + 1, k, xs => xs.take k :: chunksOf fuel k (xs.drop k)

/-- The sixteen big-endian 32-bit words of one 64-byte block. -/
def blockWords (block : List Nat) : List Nat :=
  (chunksOf block.length 4 block).map beNat

/-- Compress one 64-byte block into the running hash state. -/
def shaCompress (st : Regs) (block : List Nat) : Regs :=
  let ws := extendSched 48 (blockWords block)
  let kws := List.zipWith (fun k w => w32 (k + w)) shaK ws
  let r := kws.foldl shaRound st
  ⟨w32 (st.a + r.a), w32 (st.b + r.b), w32 (st.c + r.c), w32 (st.d + r.d),
   w32 (st.e + r.e), w32 (st.f + r.f), w32 (st.g + r.g), w32 (st.h + r.h)⟩

/-- SHA-256 padding: append `0x80`, zeros to 56 mod 64, and the 8-byte
big-endian bit length. -/
def padMsg (ms : List Nat) : List Nat :=
  let L := ms.length
  let z := (56 + 64 - ((L + 1) % 64)) % 64
  ms ++ [0x80] ++ List.replicate z 0 ++ beBytes (8 * L) 8

/-- SHA-256 digest (32 bytes) of a byte list. -/
def sha256 (ms : List Nat) : List Nat :=
  let padded := padMsg ms
  let fin := (chunksOf padded.length 64 padded).foldl shaCompress shaH0
  beBytes fin.a 4 ++ beBytes fin.b 4 ++ beBytes fin.c 4 ++ beBytes fin.d 4 ++
  beBytes fin.e 4 ++ beBytes fin.f 4 ++ beBytes fin.g 4 ++ beBytes fin.h 4

/-! ### HMAC-SHA256 (semantics of `ring::hmac` with `HMAC_SHA256`) -/

/-- HMAC-SHA256 of `msg` under byte key `key`. -/
def hmacSha256 (key msg : List Nat) : List Nat :=
  let k1 := if 64 < key.length then sha256 key else key
  let k0 := k1 ++ List.replicate (64 - k1.length) 0
  let ipad := k0.map (fun b => b ^^^ 0x36)
  let opad := k0.map (fun b => b ^^^ 0x5c)
  sha256 (opad ++ sha256 (ipad ++ msg))

/-! ### The code engine (`generate_code`, src/main.rs lines 464-493) -/

/-- UTF-8 encoding of one character (Rust `str::as_bytes` semantics). -/
def utf8Char (c : Char) : List Nat :=
  let n := c.toNat
  if n < 0x80 then [n]
  else if n < 0x800 then [0xC0 ||| (n >>> 6), 0x80 ||| (n &&& 0x3F)]
  else if n < 0x10000 then
    [0xE0 ||| (n >>> 12), 0x80 ||| ((n >>> 6) &&& 0x3F), 0x80 ||| (n &&& 0x3F)]
  else
    [0xF0 ||| (n >>> 18), 0x80 ||| ((n >>> 12) &&& 0x3F),
     0x80 ||| ((n >>> 6) &&& 0x3F), 0x80 ||| (n &&& 0x3F)]

/-- UTF-8 bytes of a string (`key.as_bytes()`). -/
def strBytes (s : String) : List Nat := (s.data.map utf8Char).flatten

/-- The mathematical content of `generate_code` at explicit time `t` (seconds
since the Unix epoch): counter `ct = (t - 0) / 30`, HMAC-SHA256 of the 8-byte
big-endian counter under the secret, first 8 digest bytes read big-endian,
reduced mod `10^6`. -/
def totpDerive (secret : List Nat) (t : Nat) : Nat :=
  let ct := (t - 0) / 30
  let digest := hmacSha256 secret (beBytes ct 8)
  beNat (digest.take 8) % 10 ^ 6

/-- `generate_code` with the source's defensive length check: if the digest is
shorter than 32 bytes the function retries itself (in the source, a recursive
call; here the recursion consumes `fuel`, and `none` models nontermination or
exhaustion).  The source reads `SystemTime::now()` itself; time is the explicit
parameter `t`. -/
def generate_code : Nat → List Nat → Nat → Option Nat
  | 0, _, _ => none
  | fuel + 1, key, t =>
      let digest := hmacSha256 key (beBytes ((t - 0) / 30) 8)
      if digest.length < 32 then generate_code fuel key t
      else some (beNat (digest.take 8) % 10 ^ 6)

/-- The reference derivation, written from the specification text (§4.1 steps
1-5): `C = floor((unix_time_seconds - T0) / step)` with `T0 = 0`, `step = 30`;
8-byte big-endian encoding of `C`; `HMAC-SHA256(key = secret, message =
big-endian(C))`; first 8 digest bytes as a big-endian unsigned 64-bit integer;
result mod `10^6`. -/
def derive_ref (secret : List Nat) (t : Nat) : Nat :=
  let C := (t - 0) / 30
  let digest := hmacSha256 secret (beBytes C 8)
  beNat (digest.take 8) % 10 ^ 6

/-! ### Application state (struct `App`, `code_list_state`, the key handlers
and `App::update`) -/

/-- One cached-code entry (struct `Totp`): `key` is the rendered code string,
`address` the account label. -/
structure Totp where
  key : String
  address : String
deriving DecidableEq, Repr

/-- `impl PartialEq for Totp`: equality compares only the `key` field. -/
def totpBeq (a b : Totp) : Bool := a.key == b.key

/-- `code_constructor`: derives the code for `key` at time `t` and renders it
with `to_string` (no zero-padding).  The `unwrap()` in the source cannot fail:
see `generate_code_total`. -/
def codeConstructor (t : Nat) (key account : String) : Totp :=
  { key := toString (totpDerive (strBytes key) t), address := account }

/-- The core state: the `App` fields plus the list selection
(`code_list_state.selected()`).  `progress` (Rust `f64`, a fraction of the
30-second bar) is modelled exactly in units of `1/10000`: the value `p`
stands for the fraction `p / 10000`. -/
structure CoreState where
  account : String
  key : String
  messages : List Totp
  progress : Nat
  keys : List (String × String × Nat)
  selected : Option Nat
deriving DecidableEq, Repr

/-- Startup state: `App::default()` and `code_list_state.select(Some(0))`. -/
def init : CoreState :=
  { account := "", key := "", messages := [], progress := 0, keys := [],
    selected := some 0 }

/-- `messages.iter_mut().find(|x| x.address == *a)` followed by
`r.key = codemsg.key`: rewrite the first entry whose address is `a`;
`none` when no entry matches. -/
def setFirstAddr (a c : String) : List Totp → Option (List Totp)
  | [] => none
  | m :: ms =>
      if m.address == a then some ({ m with key := c } :: ms)
      else (setFirstAddr a c ms).map (fun ms2 => m :: ms2)

/-- The per-account loop of `App::update` at time `t`: for each `(k, a, _)` in
`keys`, derive the fresh entry; if no cached entry holds the same code string
(`contains` via `PartialEq`, i.e. `totpBeq`), overwrite the first entry whose
address is `a` and reset `progress` to `0.0`. -/
def tickPass (t : Nat) (keys : List (String × String × Nat))
    (mp : List Totp × Nat) : List Totp × Nat :=
  keys.foldl (fun mp entry =>
    let c := codeConstructor t entry.1 entry.2.1
    if mp.1.any (fun m => totpBeq m c) then mp
    else
      match setFirstAddr entry.2.1 c.key mp.1 with
      | some ms2 => (ms2, 0)
      | none => mp) mp

/-- `App::update` at time `t`: the per-account pass, then
`progress += 0.0065`, wrapping to `0.0` when the result exceeds `1.0`
(in fixed-point units: `+ 65`, threshold `10000`). -/
def appUpdate (t : Nat) (s : CoreState) : CoreState :=
  let mp := tickPass t s.keys (s.messages, s.progress)
  let p2 := mp.2 + 65
  { s with messages := mp.1, progress := if 10000 < p2 then 0 else p2 }

/-- The operations of the event loop that touch core state.  Each constructor
is one branch of the `match` in `main`; operations that read the wall clock
carry the time explicitly. -/
inductive Op where
  /-- `KeyCode::Char(c)` with `key_input_flag` set: `app.key.push(c)`. -/
  | typeSecret (c : Char)
  /-- `KeyCode::Char(c)` with `key_input_flag` unset: `app.account.push(c)`. -/
  | typeLabel (c : Char)
  /-- `KeyCode::Enter` at time `t`: drain both buffers, append to `keys` when
  the secret is non-empty, and always push a derived message. -/
  | enter (t : Nat)
  /-- `'d'` in menu mode: `remove_code_at_index`. -/
  | removeSelected
  /-- `KeyCode::Down` in menu mode. -/
  | selNext
  /-- `KeyCode::Up` in menu mode. -/
  | selPrev
  /-- `Event::Tick` at time `t`: `app.update()`. -/
  | tick (t : Nat)
deriving DecidableEq, Repr

/-- One step of the event loop.  `none` models a Rust panic: `Vec::remove`
with an out-of-range index, or (debug-profile overflow check) the expression
`app.messages.len() - 1` when the message list is empty. -/
def step : Op → CoreState → Option CoreState
  | .typeSecret c, s => some { s with key := s.key.push c }
  | .typeLabel c, s => some { s with account := s.account.push c }
  | .enter t, s =>
      some { s with
        account := "", key := "",
        keys := s.keys ++
          (if 0 < (strBytes s.key).length then [(s.key, s.account, 0)] else []),
        messages := s.messages ++ [codeConstructor t s.key s.account] }
  | .removeSelected, s =>
      match s.selected with
      | some i =>
          if i < s.messages.length then
            some { s with messages := s.messages.eraseIdx i,
                          selected := some (if 1 < i then i - 1 else 0) }
          else none
      | none => some s
  | .selNext, s =>
      match s.selected with
      | some i =>
          if s.messages.length = 0 then none
          else some { s with
            selected := some (if s.messages.length - 1 ≤ i then 0 else i + 1) }
      | none => some s
  | .selPrev, s =>
      match s.selected with
      | some i =>
          if 0 < i then some { s with selected := some (i - 1) }
          else if s.messages.length = 0 then none
          else some { s with selected := some (s.messages.length - 1) }
      | none => some s
  | .tick t, s => some (appUpdate t s)

/-- Run a list of operations from a state; `none` once any step panics. -/
def run : List Op → CoreState → Option CoreState
  | [], s => some s
  | op :: ops, s => (step op s).bind (run ops)

/-! ### Concrete operation sequences used by the scenario claims -/

/-- Add `("secretA", "Alice")` and `("secretB", "Bob")` through the input
buffers, then press `'d'` with the selected index at its startup value 0. -/
def addRemoveScenario : List Op :=
  ("secretA".data.map Op.typeSecret) ++ ("Alice".data.map Op.typeLabel) ++
  [Op.enter 0] ++
  ("secretB".data.map Op.typeSecret) ++ ("Bob".data.map Op.typeLabel) ++
  [Op.enter 0] ++ [Op.removeSelected]

/-- Four accounts, move the selection to index 2, then remove. -/
def removeClampScenario : List Op :=
  [Op.typeSecret 'a', Op.enter 0, Op.typeSecret 'b', Op.enter 0,
   Op.typeSecret 'c', Op.enter 0, Op.typeSecret 'd', Op.enter 0,
   Op.selNext, Op.selNext, Op.removeSelected]

/-- The same account `("k", "x")` registered twice at time 0, then ticks at
31 and 93 seconds (crossing two window boundaries, spanning far more than one
step duration). -/
def duplicateAccountScenario : List Op :=
  [Op.typeSecret 'k', Op.typeLabel 'x', Op.enter 0,
   Op.typeSecret 'k', Op.typeLabel 'x', Op.enter 0,
   Op.tick 31, Op.tick 93]

/-- One account `"A"` registered at time 0, then a single tick at 59 seconds
(a new 30-second window, countdown far from wrapping). -/
def earlyTickScenario : List Op :=
  [Op.typeSecret 'A', Op.enter 0, Op.tick 59]

/-! ### Helper lemmas -/

theorem beBytes_length (n len : Nat) : (beBytes n len).length = len := by
  simp [beBytes]

theorem sha256_length (ms : List Nat) : (sha256 ms).length = 32 := by
  simp [sha256, beBytes_length]

theorem hmac_length (key msg : List Nat) : (hmacSha256 key msg).length = 32 := by
  simp [hmacSha256, sha256_length]

/-- The defensive retry branch of `generate_code` is never taken: with one
unit of fuel available the function already returns the direct derivation. -/
theorem generate_code_total (fuel : Nat) (key : List Nat) (t : Nat) :
    generate_code (fuel + 1) key t = some (totpDerive key t) := by
  simp [generate_code, totpDerive, hmac_length]

theorem utf8Char_ne_nil (c : Char) : utf8Char c ≠ [] := by
  simp only [utf8Char]
  split
  · simp
  · split
    · simp
    · split <;> simp

theorem strBytes_eq_nil_iff (s : String) : strBytes s = [] ↔ s.data = [] := by
  cases h : s.data with
  | nil => simp [strBytes, h]
  | cons c cs =>
      simp only [strBytes, h, List.map_cons, List.flatten_cons]
      constructor
      · intro hnil
        exact absurd (List.append_eq_nil.mp hnil).1 (utf8Char_ne_nil c)
      · intro hc
        cases hc

/-- `App::update` over a registry holding a single account `(k, a, _)` and a
single cached entry labelled `a`: the pass skips when that entry already shows
the fresh code, otherwise overwrites it and resets the countdown. -/
theorem tickPass_single (k a : String) (x : Nat) (m : Totp) (p : Nat) (t : Nat)
    (hm : m.address = a) :
    tickPass t [(k, a, x)] ([m], p) =
      if m.key = toString (totpDerive (strBytes k) t) then ([m], p)
      else ([⟨toString (totpDerive (strBytes k) t), a⟩], 0) := by
  subst hm
  by_cases hk : m.key = toString (totpDerive (strBytes k) t)
  · simp [tickPass, codeConstructor, totpBeq, hk]
  · simp [tickPass, codeConstructor, totpBeq, hk, setFirstAddr]

/-- Every handler keeps a selected index present. -/
theorem step_selected_isSome {op : Op} {s s' : CoreState}
    (hs : s.selected.isSome) (h : step op s = some s') : s'.selected.isSome := by
  cases op with
  | typeSecret c => exact Option.some.inj h ▸ hs
  | typeLabel c => exact Option.some.inj h ▸ hs
  | enter t => exact Option.some.inj h ▸ hs
  | tick t => exact Option.some.inj h ▸ hs
  | removeSelected =>
      rcases hsel : s.selected with _ | i <;> simp only [step, hsel] at h
      · exact Option.some.inj h ▸ hs
      · split at h
        · obtain rfl := Option.some.inj h
          rfl
        · exact Option.noConfusion h
  | selNext =>
      rcases hsel : s.selected with _ | i <;> simp only [step, hsel] at h
      · exact Option.some.inj h ▸ hs
      · split at h
        · exact Option.noConfusion h
        · obtain rfl := Option.some.inj h
          rfl
  | selPrev =>
      rcases hsel : s.selected with _ | i <;> simp only [step, hsel] at h
      · exact Option.some.inj h ▸ hs
      · split at h
        · obtain rfl := Option.some.inj h
          rfl
        · split at h
          · exact Option.noConfusion h
          · obtain rfl := Option.some.inj h
            rfl

theorem run_selected_isSome : ∀ (ops : List Op) (s s' : CoreState),
    s.selected.isSome → run ops s = some s' → s'.selected.isSome
  | [], _, _, hs, h => Option.some.inj h ▸ hs
  | op :: ops, s, s', hs, h => by
      simp only [run] at h
      cases hstep : step op s with
      | none => rw [hstep] at h; exact Option.noConfusion h
      | some s1 =>
          rw [hstep] at h
          simp only [Option.some_bind] at h
          exact run_selected_isSome ops s1 s' (step_selected_isSome hs hstep) h


theorem run_append (l1 l2 : List Op) (s : CoreState) :
    run (l1 ++ l2) s = (run l1 s).bind (run l2) := by
  induction l1 generalizing s with
  | nil => simp [run]
  | cons op ops ih =>
      show (step op s).bind (run (ops ++ l2)) =
        ((step op s).bind (run ops)).bind (run l2)
      cases step op s with
      | none => rfl
      | some s1 => simp only [Option.some_bind]; exact ih s1

theorem run_one (op : Op) (s : CoreState) : run [op] s = step op s := by
  show (step op s).bind (run []) = step op s
  cases step op s <;> rfl

/-- Evaluation of `addRemoveScenario`, one handler at a time. -/
theorem runAddRemove :
    run addRemoveScenario init =
      some ⟨"", "", [⟨"619541", "Bob"⟩], 0,
            [("secretA", "Alice", 0), ("secretB", "Bob", 0)], some 0⟩ := by
  have h0 : run ("secretA".data.map Op.typeSecret ++
      "Alice".data.map Op.typeLabel) init =
      some ⟨"Alice", "secretA", [], 0, [], some 0⟩ := by decide
  have h1 : step (Op.enter 0) ⟨"Alice", "secretA", [], 0, [], some 0⟩ =
      some ⟨"", "", [⟨"486289", "Alice"⟩], 0, [("secretA", "Alice", 0)],
            some 0⟩ := by decide
  have h2 : run ("secretB".data.map Op.typeSecret ++
      "Bob".data.map Op.typeLabel)
      ⟨"", "", [⟨"486289", "Alice"⟩], 0, [("secretA", "Alice", 0)], some 0⟩ =
      some ⟨"Bob", "secretB", [⟨"486289", "Alice"⟩], 0,
            [("secretA", "Alice", 0)], some 0⟩ := by decide
  have h3 : step (Op.enter 0)
      ⟨"Bob", "secretB", [⟨"486289", "Alice"⟩], 0, [("secretA", "Alice", 0)],
        some 0⟩ =
      some ⟨"", "", [⟨"486289", "Alice"⟩, ⟨"619541", "Bob"⟩], 0,
            [("secretA", "Alice", 0), ("secretB", "Bob", 0)], some 0⟩ := by
    decide
  have h4 : step Op.removeSelected
      ⟨"", "", [⟨"486289", "Alice"⟩, ⟨"619541", "Bob"⟩], 0,
        [("secretA", "Alice", 0), ("secretB", "Bob", 0)], some 0⟩ =
      some ⟨"", "", [⟨"619541", "Bob"⟩], 0,
            [("secretA", "Alice", 0), ("secretB", "Bob", 0)], some 0⟩ := by
    decide
  have hsplit : addRemoveScenario =
      ("secretA".data.map Op.typeSecret ++ "Alice".data.map Op.typeLabel) ++
      ([Op.enter 0] ++
        (("secretB".data.map Op.typeSecret ++ "Bob".data.map Op.typeLabel) ++
          ([Op.enter 0] ++ [Op.removeSelected]))) := by decide
  rw [hsplit, run_append, h0, Option.some_bind, run_append, run_one, h1,
    Option.some_bind, run_append, h2, Option.some_bind, run_append, run_one,
    h3, Option.some_bind, run_one, h4]

/-- Evaluation of `removeClampScenario`, one handler at a time. -/
theorem runRemoveClamp :
    run removeClampScenario init =
      some ⟨"", "",
            [⟨"426632", ""⟩, ⟨"768271", ""⟩, ⟨"874230", ""⟩], 0,
            [("a", "", 0), ("b", "", 0), ("c", "", 0), ("d", "", 0)],
            some 1⟩ := by
  have h0 : run [Op.typeSecret 'a', Op.enter 0] init =
      some ⟨"", "", [⟨"426632", ""⟩], 0, [("a", "", 0)], some 0⟩ := by decide
  have h1 : run [Op.typeSecret 'b', Op.enter 0]
      ⟨"", "", [⟨"426632", ""⟩], 0, [("a", "", 0)], some 0⟩ =
      some ⟨"", "", [⟨"426632", ""⟩, ⟨"768271", ""⟩], 0,
            [("a", "", 0), ("b", "", 0)], some 0⟩ := by decide
  have h2 : run [Op.typeSecret 'c', Op.enter 0]
      ⟨"", "", [⟨"426632", ""⟩, ⟨"768271", ""⟩], 0,
        [("a", "", 0), ("b", "", 0)], some 0⟩ =
      some ⟨"", "", [⟨"426632", ""⟩, ⟨"768271", ""⟩, ⟨"659287", ""⟩], 0,
            [("a", "", 0), ("b", "", 0), ("c", "", 0)], some 0⟩ := by decide
  have h3 : run [Op.typeSecret 'd', Op.enter 0]
      ⟨"", "", [⟨"426632", ""⟩, ⟨"768271", ""⟩, ⟨"659287", ""⟩], 0,
        [("a", "", 0), ("b", "", 0), ("c", "", 0)], some 0⟩ =
      some ⟨"", "",
            [⟨"426632", ""⟩, ⟨"768271", ""⟩, ⟨"659287", ""⟩, ⟨"874230", ""⟩],
            0, [("a", "", 0), ("b", "", 0), ("c", "", 0), ("d", "", 0)],
            some 0⟩ := by decide
  have h4 : run [Op.selNext, Op.selNext, Op.removeSelected]
      ⟨"", "",
        [⟨"426632", ""⟩, ⟨"768271", ""⟩, ⟨"659287", ""⟩, ⟨"874230", ""⟩],
        0, [("a", "", 0), ("b", "", 0), ("c", "", 0), ("d", "", 0)],
        some 0⟩ =
      some ⟨"", "",
            [⟨"426632", ""⟩, ⟨"768271", ""⟩, ⟨"874230", ""⟩], 0,
            [("a", "", 0), ("b", "", 0), ("c", "", 0), ("d", "", 0)],
            some 1⟩ := by decide
  have hsplit : removeClampScenario =
      [Op.typeSecret 'a', Op.enter 0] ++
      ([Op.typeSecret 'b', Op.enter 0] ++
        ([Op.typeSecret 'c', Op.enter 0] ++
          ([Op.typeSecret 'd', Op.enter 0] ++
            [Op.selNext, Op.selNext, Op.removeSelected]))) := by decide
  rw [hsplit, run_append, h0, Option.some_bind, run_append, h1,
    Option.some_bind, run_append, h2, Option.some_bind, run_append, h3,
    Option.some_bind, h4]

/-- Evaluation of `duplicateAccountScenario`, one handler at a time. -/
theorem runDuplicate :
    run duplicateAccountScenario init =
      some ⟨"", "", [⟨"514660", "x"⟩, ⟨"552461", "x"⟩], 65,
            [("k", "x", 0), ("k", "x", 0)], some 0⟩ := by
  have h0 : run [Op.typeSecret 'k', Op.typeLabel 'x', Op.enter 0] init =
      some ⟨"", "", [⟨"552461", "x"⟩], 0, [("k", "x", 0)], some 0⟩ := by
    decide
  have h1 : run [Op.typeSecret 'k', Op.typeLabel 'x', Op.enter 0]
      ⟨"", "", [⟨"552461", "x"⟩], 0, [("k", "x", 0)], some 0⟩ =
      some ⟨"", "", [⟨"552461", "x"⟩, ⟨"552461", "x"⟩], 0,
            [("k", "x", 0), ("k", "x", 0)], some 0⟩ := by decide
  have h2 : step (Op.tick 31)
      ⟨"", "", [⟨"552461", "x"⟩, ⟨"552461", "x"⟩], 0,
        [("k", "x", 0), ("k", "x", 0)], some 0⟩ =
      some ⟨"", "", [⟨"421485", "x"⟩, ⟨"552461", "x"⟩], 65,
            [("k", "x", 0), ("k", "x", 0)], some 0⟩ := by decide
  have h3 : step (Op.tick 93)
      ⟨"", "", [⟨"421485", "x"⟩, ⟨"552461", "x"⟩], 65,
        [("k", "x", 0), ("k", "x", 0)], some 0⟩ =
      some ⟨"", "", [⟨"514660", "x"⟩, ⟨"552461", "x"⟩], 65,
            [("k", "x", 0), ("k", "x", 0)], some 0⟩ := by decide
  have hsplit : duplicateAccountScenario =
      [Op.typeSecret 'k', Op.typeLabel 'x', Op.enter 0] ++
      ([Op.typeSecret 'k', Op.typeLabel 'x', Op.enter 0] ++
        ([Op.tick 31] ++ [Op.tick 93])) := by decide
  rw [hsplit, run_append, h0, Option.some_bind, run_append, h1,
    Option.some_bind, run_append, run_one, h2, Option.some_bind, run_one, h3]

/-- Evaluation of registering account `"A"` at time 0. -/
theorem runAddA :
    run [Op.typeSecret 'A', Op.enter 0] init =
      some ⟨"", "", [⟨"790630", ""⟩], 0, [("A", "", 0)], some 0⟩ := by decide

/-- Evaluation of `earlyTickScenario`, one handler at a time. -/
theorem runEarlyTick :
    run earlyTickScenario init =
      some ⟨"", "", [⟨"104537", ""⟩], 65, [("A", "", 0)], some 0⟩ := by
  have h1 : step (Op.tick 59)
      ⟨"", "", [⟨"790630", ""⟩], 0, [("A", "", 0)], some 0⟩ =
      some ⟨"", "", [⟨"104537", ""⟩], 65, [("A", "", 0)], some 0⟩ := by decide
  have hsplit : earlyTickScenario =
      [Op.typeSecret 'A', Op.enter 0] ++ [Op.tick 59] := by decide
  rw [hsplit, run_append, runAddA, Option.some_bind, run_one, h1]

/-! ### Claims -/

/-- C1: for every secret byte sequence and every unix time in whole seconds,
`generate_code` (at any positive fuel, so without ever retrying) equals the
reference derivation `derive_ref` built from the specification text; for the
ASCII secret `"12345678901234567890"` at `t = 59` the counter is `C = 1` and
the derived code is the reference value `533482`. -/
theorem generate_code_matches_reference :
    (∀ (fuel : Nat) (s : List Nat) (t : Nat),
      generate_code (fuel + 1) s t = some (derive_ref s t)) ∧
    59 / 30 = 1 ∧
    derive_ref (strBytes "12345678901234567890") 59 = 533482 := by
  refine ⟨fun fuel s t => ?_, rfl, by decide⟩
  rw [generate_code_total]
  rfl

/-- C8: derivation is deterministic per 30-second window: times with the same
`t / 30` yield the same code, for every secret and any positive fuel. -/
theorem derive_window_deterministic (fuel : Nat) (s : List Nat) (t1 t2 : Nat)
    (h : t1 / 30 = t2 / 30) :
    generate_code (fuel + 1) s t1 = generate_code (fuel + 1) s t2 := by
  rw [generate_code_total, generate_code_total]
  simp only [totpDerive, Nat.sub_zero, h]

/-- Witness for C8 at secret `[49]` (ASCII `"1"`), times 59 and 31 (both in
window 1). -/
theorem derive_window_deterministic_witness :
    59 / 30 = 31 / 30 ∧ generate_code 1 [49] 59 = generate_code 1 [49] 31 :=
  ⟨by decide, derive_window_deterministic 0 [49] 59 31 (by decide)⟩

/-- C9: the digest always holds the 8 bytes that are read (it is 32 bytes
long), the defensive `< 32` retry guard is never true, and derivation
returns successfully at any positive fuel — the retry cannot loop and no
error is propagated. -/
theorem derive_terminates_within_digest (fuel : Nat) (s : List Nat) (t : Nat) :
    8 ≤ (hmacSha256 s (beBytes ((t - 0) / 30) 8)).length ∧
    ¬ (hmacSha256 s (beBytes ((t - 0) / 30) 8)).length < 32 ∧
    generate_code (fuel + 1) s t = some (totpDerive s t) := by
  refine ⟨?_, ?_, generate_code_total fuel s t⟩ <;> rw [hmac_length] <;> decide

/-- C10: `Totp` equality compares only the rendered code string and ignores
the label; consequently the refresh pass over a single account is skipped
entirely whenever any cached entry (whatever its label) already holds the
freshly derived code string. -/
theorem totp_eq_compares_key_only :
    (∀ a b : Totp, totpBeq a b = (a.key == b.key)) ∧
    (∀ (k a : String) (x : Nat) (ms : List Totp) (p : Nat) (t : Nat),
      (∃ m ∈ ms, m.key = toString (totpDerive (strBytes k) t)) →
      tickPass t [(k, a, x)] (ms, p) = (ms, p)) := by
  refine ⟨fun a b => rfl, ?_⟩
  rintro k a x ms p t ⟨m, hm, hkey⟩
  have hany : ms.any (fun m' => totpBeq m' (codeConstructor t k a)) = true :=
    List.any_eq_true.mpr ⟨m, hm, by simp [totpBeq, codeConstructor, hkey]⟩
  simp only [tickPass, List.foldl_cons, List.foldl_nil]
  rw [hany]
  simp

/-- Witness for C10: the entry labelled `"other"` already shows the code of
secret `"A"` at `t = 59`, so the pass for the account labelled `"lbl"` is
skipped. -/
theorem totp_eq_compares_key_only_witness :
    tickPass 59 [("A", "lbl", 0)] ([⟨"104537", "other"⟩], 5000) =
      ([⟨"104537", "other"⟩], 5000) :=
  totp_eq_compares_key_only.2 "A" "lbl" 0 [⟨"104537", "other"⟩] 5000 59
    ⟨⟨"104537", "other"⟩, List.mem_singleton.mpr rfl, by decide⟩

/-- C3 counterexample: already in the startup state (the empty operation
sequence) the registry is empty while a selected index `some 0` is present,
contradicting "absent/undefined whenever the length is 0". -/
theorem selected_index_invariant_counterexample :
    run [] init = some init ∧ init.messages.length = 0 ∧
    init.selected = some 0 := ⟨rfl, rfl, rfl⟩

/-- C3 amended: after any panic-free sequence of operations from the startup
state, a selected index is always present (`some`) — including when the
registry is empty. -/
theorem selected_index_always_present (ops : List Op) (s' : CoreState)
    (h : run ops init = some s') : s'.selected.isSome :=
  run_selected_isSome ops init s' rfl h

/-- Witness for amended C3 at the empty operation sequence. -/
theorem selected_index_always_present_witness : init.selected.isSome :=
  selected_index_always_present [] init rfl

/-- C4 counterexample: submitting the add form with label `"X"` and an empty
secret leaves the registry empty (`keys.length = 0`) but still creates one
cached-code entry (`messages.length = 1`), contradicting "no cached-code
entry is created". -/
theorem add_empty_secret_counterexample :
    (run [Op.typeLabel 'X', Op.enter 0] init).map
      (fun s => (s.keys.length, s.messages.length)) = some (0, 1) := by
  decide

/-- C4 amended: `Enter` always pushes one derived message entry; with an
empty secret the account registry `keys` is unchanged (and no error is
raised), with a non-empty secret exactly one account entry is appended. -/
theorem add_account_semantics (s s' : CoreState) (t : Nat)
    (h : step (Op.enter t) s = some s') :
    s'.messages = s.messages ++ [codeConstructor t s.key s.account] ∧
    (s.key = "" → s'.keys = s.keys) ∧
    (s.key ≠ "" → s'.keys = s.keys ++ [(s.key, s.account, 0)]) := by
  obtain rfl := Option.some.inj h
  refine ⟨rfl, fun hk => ?_, fun hk => ?_⟩
  · have h0 : (strBytes s.key).length = 0 := by rw [hk]; rfl
    simp [h0]
  · have hd : s.key.data ≠ [] := fun hdata => hk (String.ext hdata)
    have hpos : 0 < (strBytes s.key).length :=
      List.length_pos.mpr (fun hnil => hd ((strBytes_eq_nil_iff s.key).mp hnil))
    simp [hpos]

/-- Witness for amended C4: adding secret `"a"` with an empty label from the
startup state appends exactly the derived message. -/
theorem add_account_semantics_witness :
    ({ account := "", key := "", messages := [⟨"426632", ""⟩], progress := 0,
       keys := [("a", "", 0)], selected := some 0 } : CoreState).messages =
      ({ init with key := "a" } : CoreState).messages ++
        [codeConstructor 0 "a" ""] :=
  (add_account_semantics { init with key := "a" } _ 0 (by decide)).1

/-- C5 counterexample: pressing `'d'` (remove) in the startup state panics
(`Vec::remove` with index 0 on an empty vector), and pressing `Down` panics
on the debug-profile underflow of `messages.len() - 1` — neither is a
no-op. -/
theorem invalid_index_noop_counterexample :
    run [Op.removeSelected] init = none ∧ run [Op.selNext] init = none := by
  decide

/-- C5 amended: an out-of-range selected index makes `remove` panic instead
of a no-op; `select_next` panics whenever the registry is empty, as does
`select_prev` when additionally the selected index is 0; `remove` with an
in-range index does succeed. -/
theorem invalid_index_behavior (s : CoreState) (i : Nat)
    (hsel : s.selected = some i) :
    (s.messages.length ≤ i → step Op.removeSelected s = none) ∧
    (s.messages.length = 0 → step Op.selNext s = none) ∧
    (s.messages.length = 0 → i = 0 → step Op.selPrev s = none) ∧
    (i < s.messages.length → (step Op.removeSelected s).isSome = true) := by
  refine ⟨fun hle => ?_, fun h0 => ?_, fun h0 hi => ?_, fun hlt => ?_⟩
  · simp [step, hsel, Nat.not_lt.mpr hle]
  · simp [step, hsel, h0]
  · subst hi
    simp [step, hsel, h0]
  · simp [step, hsel, hlt]

/-- Witness for amended C5 at the startup state. -/
theorem invalid_index_behavior_witness : step Op.removeSelected init = none :=
  (invalid_index_behavior init 0 rfl).1 (by decide)

/-- C6 counterexample: with four accounts and the selection moved to index 2,
pressing remove leaves 3 entries but sets the selected index to 1, whereas the
claimed re-clamp `max(0, min(selected, len-1)) = max(0, min(2, 2))` is 2. -/
theorem remove_clamp_counterexample :
    (run removeClampScenario init).map
        (fun s => (s.selected, s.messages.length)) = some (some 1, 3) ∧
    (1 : Nat) ≠ max 0 (min 2 (3 - 1)) := by
  exact ⟨by rw [runRemoveClamp]; rfl, by decide⟩

/-- C6 amended: removing at an in-range selected index `i` deletes the cached
entry at `i` and sets the selected index to `i - 1` when `i > 1` and to `0`
otherwise (not to the clamp `max(0, min(i, len-1))`); the account list `keys`
is untouched.  The concrete Alice/Bob scenario of the claim does hold: after
adding `("secretA","Alice")` and `("secretB","Bob")` and removing at the
startup selection 0, one cached entry remains, labelled `"Bob"`, with
selected index 0 (while both accounts stay in `keys`). -/
theorem remove_selected_semantics (s s' : CoreState) (i : Nat)
    (hsel : s.selected = some i) (hlt : i < s.messages.length)
    (h : step Op.removeSelected s = some s') :
    (s'.messages = s.messages.eraseIdx i ∧
      s'.selected = some (if 1 < i then i - 1 else 0) ∧
      s'.keys = s.keys) ∧
    ((run addRemoveScenario init).map
        (fun s2 => (s2.messages.map (fun m => m.address), s2.messages.length,
                    s2.selected)) = some (["Bob"], 1, some 0) ∧
      (run addRemoveScenario init).map (fun s2 => s2.keys) =
        some [("secretA", "Alice", 0), ("secretB", "Bob", 0)]) := by
  refine ⟨?_, by rw [runAddRemove]; rfl, by rw [runAddRemove]; rfl⟩
  simp only [step, hsel] at h
  rw [if_pos hlt] at h
  obtain rfl := Option.some.inj h
  exact ⟨rfl, rfl, rfl⟩

/-- Witness for amended C6: removing index 0 of two entries keeps the second
entry and selects index 0. -/
theorem remove_selected_semantics_witness :
    (⟨"", "", [⟨"2", ""⟩], 0, [], some 0⟩ : CoreState).messages =
      (⟨"", "", [⟨"1", ""⟩, ⟨"2", ""⟩], 0, [], some 0⟩ :
        CoreState).messages.eraseIdx 0 :=
  ((remove_selected_semantics ⟨"", "", [⟨"1", ""⟩, ⟨"2", ""⟩], 0, [], some 0⟩
    ⟨"", "", [⟨"2", ""⟩], 0, [], some 0⟩ 0 rfl (by decide) (by decide)).1).1

/-- C2 counterexample: register the same account `("k","x")` twice at time 0,
then process ticks at 31 and 93 seconds (crossing two window boundaries, far
more than one step duration).  The second cached entry still shows
`"552461"`, the code of window 0, while `derive("k", 93) = "514660"`: the
refresh pass always skips the duplicate because the first entry already holds
the freshly derived code string, so its staleness grows without bound. -/
theorem cached_code_staleness_counterexample :
    (run duplicateAccountScenario init).map
        (fun s => (s.messages.map (fun m => m.key), s.keys.length)) =
      some (["514660", "552461"], 2) ∧
    toString (totpDerive (strBytes "k") 93) = "514660" ∧
    "552461" ≠ "514660" := by
  refine ⟨by rw [runDuplicate]; rfl, by decide, by decide⟩

/-- C2 amended: the freshness guarantee holds for a registry with a single
account and a single cached entry bearing its label: every processed tick
leaves that entry showing `derive(secret, now)`.  (With several entries the
pass skips an account whenever any cached entry already holds the identical
code string — see the counterexample.) -/
theorem cached_code_fresh_single_account (k : String) (x : Nat) (m : Totp)
    (t : Nat) (s : CoreState) (hs : s.keys = [(k, m.address, x)])
    (hmsg : s.messages = [m]) :
    (appUpdate t s).messages =
      [⟨toString (totpDerive (strBytes k) t), m.address⟩] := by
  have htp := tickPass_single k m.address x m s.progress t rfl
  simp only [appUpdate, hs, hmsg, htp]
  rcases eq_or_ne m.key (toString (totpDerive (strBytes k) t)) with hk | hk
  · rw [if_pos hk]
    show [m] = [⟨toString (totpDerive (strBytes k) t), m.address⟩]
    rw [← hk]
  · rw [if_neg hk]

/-- Witness for amended C2: one account `("k","x")` whose cached entry shows
the window-0 code, refreshed by a tick at 61 seconds. -/
theorem cached_code_fresh_single_account_witness :
    (appUpdate 61
        ⟨"", "", [⟨"552461", "x"⟩], 0, [("k", "x", 0)], some 0⟩).messages =
      [⟨toString (totpDerive (strBytes "k") 61), "x"⟩] :=
  cached_code_fresh_single_account "k" 0 ⟨"552461", "x"⟩ 61 _ rfl rfl

/-- C7 counterexample: after registering account `"A"` at time 0 the countdown
is 0 and the cached code is `"790630"`; one tick at 59 seconds overwrites the
cached code (to `"104537"`) although the countdown only moves from 0 to
0.0065 (65 fixed-point units) and never exceeds 1.0 (10000 units) —
recomputation is not tied to the countdown wrap — and the per-tick increment
0.0065 differs from the claimed `tick/step = 0.2/30 = 1/150`. -/
theorem countdown_wrap_counterexample :
    (run [Op.typeSecret 'A', Op.enter 0] init).map
        (fun s => (s.messages.map (fun m => m.key), s.progress)) =
      some (["790630"], 0) ∧
    (run earlyTickScenario init).map
        (fun s => (s.messages.map (fun m => m.key), s.progress)) =
      some (["104537"], 65) ∧
    0 + 65 ≤ 10000 ∧ ((65 : ℚ) / 10000 ≠ 1 / 150) := by
  refine ⟨by rw [runAddA]; rfl, by rw [runEarlyTick]; rfl, by decide,
    by norm_num⟩

/-- C7 amended: on a tick the refresh pass runs first — independently of any
wrap — and each overwrite resets the countdown to 0; afterwards the countdown
increments by the fixed constant 0.0065 = 65 fixed-point units (not
`tick_interval / step_duration`) and wraps to 0 exactly when the result
exceeds 1.0 (10000 units).  In particular with no accounts the messages never
change and the countdown follows increment-then-wrap, and with a single stale
account a tick overwrites the cached code and leaves the countdown at
0 + 0.0065 even though it never exceeded 1.0. -/
theorem tick_update_semantics (s : CoreState) (t : Nat) :
    (s.keys = [] →
      (appUpdate t s).messages = s.messages ∧
      (appUpdate t s).progress =
        if 10000 < s.progress + 65 then 0 else s.progress + 65) ∧
    (10000 < (tickPass t s.keys (s.messages, s.progress)).2 + 65 →
      (appUpdate t s).progress = 0) ∧
    (∀ (k : String) (x : Nat) (m : Totp),
      s.keys = [(k, m.address, x)] → s.messages = [m] →
      m.key ≠ toString (totpDerive (strBytes k) t) →
      (appUpdate t s).messages ≠ s.messages ∧
      (appUpdate t s).progress = 0 + 65) := by
  refine ⟨fun hkeys => ?_, fun hwrap => ?_, fun k x m hs hmsg hne => ?_⟩
  · constructor
    · simp [appUpdate, hkeys, tickPass]
    · simp [appUpdate, hkeys, tickPass]
  · simp only [appUpdate]
    rw [if_pos hwrap]
  · have htp := tickPass_single k m.address x m s.progress t rfl
    rw [if_neg hne] at htp
    constructor
    · simp only [appUpdate, hs, hmsg, htp]
      intro hcon
      exact hne (congrArg Totp.key (List.cons.inj hcon).1).symm
    · simp only [appUpdate, hs, hmsg, htp]
      rw [if_neg (by decide)]

/-- Witness for amended C7: one stale account `"A"` at a tick at 59 seconds —
the cached code is overwritten although the countdown never wrapped. -/
theorem tick_update_semantics_witness :
    (appUpdate 59
        ⟨"", "", [⟨"790630", ""⟩], 0, [("A", "", 0)], some 0⟩).messages ≠
      [⟨"790630", ""⟩] :=
  ((tick_update_semantics
      ⟨"", "", [⟨"790630", ""⟩], 0, [("A", "", 0)], some 0⟩ 59).2.2
    "A" 0 ⟨"790630", ""⟩ rfl rfl (by decide)).1
